import Mathlib

/-!
Verification development for the azlo-validator-shared email-deliverability
library. The Go source is shallowly embedded: pure functions become Lean
functions, network calls (DNS lookups, SMTP probes, the reputation provider's
HTTP exchange) become explicit environment parameters, Go machine integers
become Nat/Int, and Go time.Time values become Nat timestamps. String
helpers from the Go standard library (strings.Split on a one-character
separator, strings.Contains, strings.TrimSuffix, strings.ToLower,
strings.TrimSpace) are re-implemented structurally below so that all
definitions evaluate on concrete inputs.
-/

/-! ## String utilities (models of Go standard-library helpers) -/

-- strings.Split with a single-character separator.
def splitOnCharAux (sep : Char) : List Char → List Char → List (List Char)
  | [], acc => [acc.reverse]
  | c :: cs, acc =>
    if c = sep then acc.reverse :: splitOnCharAux sep cs []
    else splitOnCharAux sep cs (c :: acc)

def goSplitChar (sep : Char) (s : String) : List String :=
  (splitOnCharAux sep s.data []).map List.asString

-- Prefix test on character lists, used by the substring search below.
def isPrefixChars : List Char → List Char → Bool
  | [], _ => true
  | _ :: _, [] => false
  | p :: ps, c :: cs => p = c && isPrefixChars ps cs

def containsAux (pat : List Char) : List Char → Bool
  | [] => isPrefixChars pat []
  | c :: cs => isPrefixChars pat (c :: cs) || containsAux pat cs

-- strings.Contains.
def goContains (s pat : String) : Bool :=
  containsAux pat.data s.data

-- strings.TrimSuffix(s, ".") : removes one trailing dot if present.
def trimSuffixDot (s : String) : String :=
  match s.data.reverse with
  | '.' :: rest => rest.reverse.asString
  | _ => s

-- strings.ToLower; the domains handled here are ASCII, where Go's Unicode
-- lowercasing and Char.toLower agree.
def goToLower (s : String) : String :=
  (s.data.map Char.toLower).asString

def isGoSpace (c : Char) : Bool :=
  c = ' ' || c = '\t' || c = '\n' || c = '\r' || c = '\x0b' || c = '\x0c'

-- strings.TrimSpace (ASCII whitespace; the inputs in question are domains).
def goTrimSpace (s : String) : String :=
  (((s.data.dropWhile isGoSpace).reverse.dropWhile isGoSpace).reverse).asString

/-! ## types.go : Status constants -/

-- type Status string, with its constants.
def StatusValid : String := "VALID"
def StatusInvalid : String := "INVALID"
def StatusRisky : String := "RISKY"
def StatusPending : String := "PENDING"
def StatusProcessing : String := "PROCESSING"
def StatusErrorVal : String := "ERROR"

/-! ## smtp.go : SMTPResult, analyzeSMTPResponse, CheckSMTP -/

-- net.MX record: Host string, Pref uint16.
structure MXRec where
  host : String
  pref : Nat
deriving DecidableEq, Repr

structure SMTPResult where
  status : String
  reason : String
  code : Int
deriving DecidableEq, Repr

-- analyzeSMTPResponse interprets the SMTP reply code from the RCPT TO step.
-- The email argument is unused by the Go body but kept for signature fidelity.
def analyzeSMTPResponse (_email : String) (code : Int) (msg : String) : SMTPResult :=
  if 200 ≤ code ∧ code ≤ 299 then
    { status := StatusValid, reason := "Mailbox confirmed", code := code }
  else if code = 550 ∨ code = 551 ∨ code = 553 then
    { status := StatusInvalid, reason := "Mailbox does not exist", code := code }
  else if code = 552 then
    { status := StatusRisky, reason := "Mailbox full or over quota", code := code }
  else if 500 ≤ code then
    { status := StatusRisky, reason := "Server rejected the request: " ++ toString code ++ " " ++ msg, code := code }
  else if 400 ≤ code then
    { status := StatusRisky, reason := "Greylisted or temporary server issue", code := code }
  else
    { status := StatusRisky, reason := "Unknown SMTP response: " ++ toString code ++ " " ++ msg, code := code }

-- A probe outcome stops the CheckSMTP iteration exactly when it is
-- StatusValid or StatusInvalid (the Go condition in the server loop).
def isDecisive (r : SMTPResult) : Prop :=
  r.status = StatusValid ∨ r.status = StatusInvalid

instance (r : SMTPResult) : Decidable (isDecisive r) := by
  unfold isDecisive; infer_instance

-- The per-server SMTP session (checkSMTPServer) performs network I/O; it is
-- abstracted as an environment function from the server host to the
-- SMTPResult the session produces. CheckSMTP's loop over servers is embedded
-- below; the second component of the returned pair records, in order, the
-- hosts on which checkSMTPServer was invoked (the probe trace).
def smtpLoop (probe : String → SMTPResult) : List MXRec → SMTPResult × List String
  | [] =>
    ({ status := StatusRisky, reason := "All SMTP servers returned uncertain results", code := 0 }, [])
  | s :: rest =>
    let r := probe s.host
    if isDecisive r then (r, [s.host])
    else ((smtpLoop probe rest).1, s.host :: (smtpLoop probe rest).2)

def CheckSMTP (probe : String → SMTPResult) (servers : List MXRec) : SMTPResult × List String :=
  if servers.isEmpty then
    ({ status := StatusInvalid, reason := "No SMTP servers found for the domain", code := 0 }, [])
  else smtpLoop probe servers

-- Modelled from the spec: the response-classification table exactly as the
-- claim states it ("every other 5xx code" reads as 500..599, and everything
-- else, including 0, yields the unknown-response reason). Used to compare the
-- code's classifier against the claim's wording.
def specClassification (code : Int) (msg : String) : SMTPResult :=
  if 200 ≤ code ∧ code ≤ 299 then
    { status := StatusValid, reason := "Mailbox confirmed", code := code }
  else if code = 550 ∨ code = 551 ∨ code = 553 then
    { status := StatusInvalid, reason := "Mailbox does not exist", code := code }
  else if code = 552 then
    { status := StatusRisky, reason := "Mailbox full or over quota", code := code }
  else if 500 ≤ code ∧ code ≤ 599 then
    { status := StatusRisky, reason := "Server rejected the request: " ++ toString code ++ " " ++ msg, code := code }
  else if 400 ≤ code ∧ code ≤ 499 then
    { status := StatusRisky, reason := "Greylisted or temporary server issue", code := code }
  else
    { status := StatusRisky, reason := "Unknown SMTP response: " ++ toString code ++ " " ++ msg, code := code }

-- Modelled from the spec: the same table amended only where the code
-- disagrees with the claim's wording: reply codes of 600 and above fall into
-- the server-rejected bucket (the Go branch is `code >= 500`), not the
-- unknown-response bucket.
def specClassificationAmended (code : Int) (msg : String) : SMTPResult :=
  if 200 ≤ code ∧ code ≤ 299 then
    { status := StatusValid, reason := "Mailbox confirmed", code := code }
  else if code = 550 ∨ code = 551 ∨ code = 553 then
    { status := StatusInvalid, reason := "Mailbox does not exist", code := code }
  else if code = 552 then
    { status := StatusRisky, reason := "Mailbox full or over quota", code := code }
  else if 500 ≤ code then
    { status := StatusRisky, reason := "Server rejected the request: " ++ toString code ++ " " ++ msg, code := code }
  else if 400 ≤ code ∧ code ≤ 499 then
    { status := StatusRisky, reason := "Greylisted or temporary server issue", code := code }
  else
    { status := StatusRisky, reason := "Unknown SMTP response: " ++ toString code ++ " " ++ msg, code := code }

/-! ## dns.go : CheckMX, CheckA, ValidateDomain -/

-- Errors produced by net lookups, as the Go code discriminates them: a
-- *net.DNSError carries IsNotFound and IsTimeout flags (checked in that
-- order), any other error is opaque. The msg field models err.Error().
inductive NetErr where
  | dns (isNotFound isTimeout : Bool) (msg : String)
  | other (msg : String)
deriving DecidableEq, Repr

def NetErr.msgStr : NetErr → String
  | .dns _ _ m => m
  | .other m => m

-- The DNS environment: results of net.LookupHost, net.LookupMX, net.LookupIP.
structure DNSEnv where
  lookupHost : String → Except NetErr (List String)
  lookupMX : String → Except NetErr (List MXRec)
  lookupIP : String → Except NetErr (List String)

-- CheckMX and CheckA normalize the domain first:
-- strings.ToLower(strings.TrimSpace(domain)).
def normalizeDomain (s : String) : String := goToLower (goTrimSpace s)

-- The error message CheckMX builds from a failed MX lookup.
def mxErrMsg : NetErr → String
  | .dns true _ _ => "domain does not exist"
  | .dns false true _ => "DNS lookup timeout"
  | .dns false false _ => "failed to lookup MX records"
  | .other _ => "failed to lookup MX records"

-- The error message CheckA builds from a failed IP lookup.
def aErrMsg : NetErr → String
  | .dns true _ _ => "domain does not exist"
  | .dns false true _ => "DNS lookup timeout"
  | .dns false false _ => "failed to lookup A records"
  | .other _ => "failed to lookup A records"

-- The error component of CheckMX. CheckMX's success value is the MX list
-- sorted with sort.Slice; whether CheckMX errors (and with which message)
-- does not depend on the sort, so the error path is a plain function while
-- the sorted output is specified relationally below (sort.Slice does not fix
-- the order of equal-priority records).
def checkMXError (env : DNSEnv) (domain : String) : Option String :=
  match env.lookupMX (normalizeDomain domain) with
  | .error e => some (mxErrMsg e)
  | .ok mxs => if mxs.isEmpty then some "no MX records found for the domain" else none

-- The error component of CheckA (its success value, the IP list, is returned
-- unchanged; ValidateDomain only inspects whether an error occurred).
def checkAError (env : DNSEnv) (domain : String) : Option String :=
  match env.lookupIP (normalizeDomain domain) with
  | .error e => some (aErrMsg e)
  | .ok ips => if ips.isEmpty then some "no A records found for the domain" else none

-- ValidateDomain: try CheckMX; on MX failure fall back to CheckA; if the A
-- lookup also fails, return the original MX error. Returns none on success.
def ValidateDomainGo (env : DNSEnv) (domain : String) : Option String :=
  match checkMXError env domain with
  | none => none
  | some mxErr =>
    match checkAError env domain with
    | none => none
    | some _ => some mxErr

-- The less function CheckMX passes to sort.Slice:
-- mxRecords[i].Pref < mxRecords[j].Pref.
def sortLessMX (a b : MXRec) : Bool := decide (a.pref < b.pref)

-- A list is sorted for sort.Slice's purposes when no adjacent pair is in
-- strictly descending order under the less function.
def mxSorted : List MXRec → Bool
  | [] => true
  | [_] => true
  | a :: b :: rest => !sortLessMX b a && mxSorted (b :: rest)

-- Go's sort.Slice contract: the output is a permutation of the input that is
-- non-decreasing under the less function. sort.Slice is documented as not
-- guaranteed to be stable, so the order of equal-priority records is
-- unspecified; the contract is therefore a relation, not a function.
def goSortSliceContract (input output : List MXRec) : Prop :=
  input.Perm output ∧ mxSorted output = true

-- CheckMX as a relation between the environment and its possible results.
def CheckMXRel (env : DNSEnv) (domain : String) (out : Except String (List MXRec)) : Prop :=
  (∀ e, env.lookupMX (normalizeDomain domain) = .error e → out = .error (mxErrMsg e)) ∧
  (env.lookupMX (normalizeDomain domain) = .ok [] →
    out = .error "no MX records found for the domain") ∧
  (∀ mxs, env.lookupMX (normalizeDomain domain) = .ok mxs → mxs ≠ [] →
    ∃ sorted, goSortSliceContract mxs sorted ∧ out = .ok sorted)

-- Modelled from the spec: the stable ascending-by-priority sort the claim
-- describes ("records with equal priority retain their original relative
-- order"), written as a stable insertion sort.
def stableInsert (x : MXRec) : List MXRec → List MXRec
  | [] => [x]
  | y :: ys => if y.pref < x.pref then y :: stableInsert x ys else x :: y :: ys

def stableSortByPref (l : List MXRec) : List MXRec :=
  l.foldr stableInsert []

/-! ## abuseipdb.go : GetMailServerIPs -/

def lookupOk (r : Except NetErr (List String)) : Bool :=
  match r with
  | .ok _ => true
  | .error _ => false

-- The inner accumulation of GetMailServerIPs: the Go code keeps a seenIPs
-- map alongside the ips slice; the map's content is always exactly the set
-- of elements of ips, so membership in the accumulated list stands in for it.
def addUnique (ips addrs : List String) : List String :=
  addrs.foldl (fun acc addr => if addr ∈ acc then acc else acc ++ [addr]) ips

def gatherIPs (env : DNSEnv) : List MXRec → List String → List String
  | [], ips => ips
  | mx :: rest, ips =>
    match env.lookupHost (trimSuffixDot mx.host) with
    | .error _ => gatherIPs env rest ips
    | .ok addrs => gatherIPs env rest (addUnique ips addrs)

-- GetMailServerIPs: looks up MX records (no domain normalization here),
-- resolves each MX hostname (with its trailing dot removed), skips hosts
-- that fail to resolve, and collects the unique addresses in order.
def GetMailServerIPs (env : DNSEnv) (domain : String) : Except String (List String) :=
  match env.lookupMX domain with
  | .error e => .error ("failed to lookup MX records: " ++ e.msgStr)
  | .ok mxRecords => .ok (gatherIPs env mxRecords [])

/-! ## abuseipdb.go : CheckIP and the reputation data model -/

-- The data block of an AbuseIPDB API response (after JSON decoding).
structure AbuseData where
  ipAddress : String := ""
  isPublic : Bool := false
  ipVersion : Int := 0
  isWhitelisted : Bool := false
  abuseConfidenceScore : Int := 0
  countryCode : String := ""
  countryName : String := ""
  usageType : String := ""
  isp : String := ""
  domain : String := ""
  totalReports : Int := 0
  numDistinctUsers : Int := 0
  lastReportedAt : Nat := 0
deriving DecidableEq, Repr

structure IPReputationResult where
  ipAddress : String := ""
  isWhitelisted : Bool := false
  abuseConfidenceScore : Int := 0
  totalReports : Int := 0
  countryCode : String := ""
  isp : String := ""
  domain : String := ""
  lastReportedAt : Nat := 0
  checkedAt : Nat := 0
  errMsg : String := ""
deriving DecidableEq, Repr

-- One HTTP exchange with the provider for one IP, abstracted to the
-- outcomes CheckIP's body discriminates: transport failure, body-read
-- failure, non-200 status, JSON decode failure, or a decoded response.
inductive FetchOutcome where
  | transportFailure (msg : String)
  | readFailure (msg : String)
  | apiFailure (statusCode : Int) (body : String)
  | decodeFailure (msg : String)
  | success (data : AbuseData)
deriving DecidableEq, Repr

structure ReputationEnv where
  fetch : String → FetchOutcome

-- Models net.ParseIP for dotted-quad IPv4 literals (each octet 1-3 decimal
-- digits, no leading zero, value at most 255); the addresses this code
-- receives come from DNS A-record lookups and have this shape. IPv6 text
-- forms are not modelled.
def strToNat (s : String) : Nat :=
  s.data.foldl (fun n c => n * 10 + (c.toNat - '0'.toNat)) 0

def octetOk (s : String) : Bool :=
  !s.data.isEmpty && s.data.all Char.isDigit && decide (s.data.length ≤ 3) &&
  (match s.data with
   | '0' :: _ :: _ => false
   | _ => true) &&
  decide (strToNat s ≤ 255)

def goParseIPOk (s : String) : Bool :=
  match goSplitChar '.' s with
  | [a, b, c, d] => octetOk a && octetOk b && octetOk c && octetOk d
  | _ => false

-- CheckIP. All of its failure modes are returned as a result carrying an
-- error message together with a nil Go error; the only path returning a
-- non-nil error is a failure of http.NewRequest, which cannot occur because
-- the method ("GET") and URL (baseURL ++ "/check") are fixed and valid, so
-- the embedding never produces .error. time.Now() is the `now` parameter.
def CheckIP (penv : ReputationEnv) (now : Nat) (ip : String) : Except String IPReputationResult :=
  if goParseIPOk ip = false then
    .ok { ipAddress := ip, errMsg := "invalid IP address format", checkedAt := now }
  else
    match penv.fetch ip with
    | .transportFailure m =>
      .ok { ipAddress := ip, errMsg := "HTTP request failed: " ++ m, checkedAt := now }
    | .readFailure m =>
      .ok { ipAddress := ip, errMsg := "failed to read response: " ++ m, checkedAt := now }
    | .apiFailure sc body =>
      .ok { ipAddress := ip, errMsg := "API error: " ++ toString sc ++ " - " ++ body, checkedAt := now }
    | .decodeFailure m =>
      .ok { ipAddress := ip, errMsg := "failed to parse response: " ++ m, checkedAt := now }
    | .success d =>
      .ok { ipAddress := d.ipAddress, isWhitelisted := d.isWhitelisted,
            abuseConfidenceScore := d.abuseConfidenceScore, totalReports := d.totalReports,
            countryCode := d.countryCode, isp := d.isp, domain := d.domain,
            lastReportedAt := d.lastReportedAt, checkedAt := now }

/-! ## validator.go : the basic Validator -/

-- Metadata values stored in a Result's map[string]interface{}.
inductive MetaVal where
  | b (v : Bool)
  | s (v : String)
  | n (v : Nat)
  | strList (v : List String)
  | repList (v : List IPReputationResult)
deriving DecidableEq, Repr

-- The Result populated by the basic and enhanced validators (email, string
-- status, reason, metadata map; the map is modelled as the association list
-- in insertion order, all keys distinct).
structure ValResult where
  email : String
  status : String := ""
  reason : String := ""
  metadata : List (String × MetaVal) := []
deriving DecidableEq, Repr

-- Recognizer for the validator's regex
--   ^[a-zA-Z0-9._%+-]+@[a-zA-Z0-9.-]+\.[a-zA-Z]{2,}$
-- Because '@' occurs in no character class, a match splits the string at its
-- unique '@'; because the final [a-zA-Z]{2,} group cannot contain a dot, the
-- \. of the pattern is necessarily the last dot of the domain part, with a
-- non-empty [a-zA-Z0-9.-]+ prefix before it.
def isLocalChar (c : Char) : Bool :=
  c.isAlphanum || c = '.' || c = '_' || c = '%' || c = '+' || c = '-'

def isDomainChar (c : Char) : Bool :=
  c.isAlphanum || c = '.' || c = '-'

def dotJoin : List String → String
  | [] => ""
  | [s] => s
  | s :: rest => s ++ "." ++ dotJoin rest

def emailRegexMatch (email : String) : Bool :=
  match goSplitChar '@' email with
  | [lp, dom] =>
    !lp.data.isEmpty && lp.data.all isLocalChar &&
    (match (goSplitChar '.' dom).reverse with
     | tld :: m1 :: restRev =>
       (!(dotJoin (m1 :: restRev).reverse).data.isEmpty &&
        (dotJoin (m1 :: restRev).reverse).data.all isDomainChar) &&
       decide (2 ≤ tld.data.length) && tld.data.all Char.isAlpha
     | _ => false)
  | _ => false

def suspiciousPatterns : List String :=
  ["temp", "temporary", "disposable", "throwaway", "fake",
   "test", "example", "invalid", "localhost"]

def disposableDomains : List String :=
  ["10minutemail.com", "guerrillamail.com", "mailinator.com",
   "tempmail.org", "throwaway.email", "yopmail.com",
   "temp-mail.org", "getairmail.com", "sharklasers.com"]

structure DomainValidationResult where
  valid : Bool
  reason : String
  metadata : List (String × MetaVal)
deriving DecidableEq, Repr

-- validateDomain (method on Validator): host resolution, MX presence,
-- suspicious-substring heuristics, then the exact-match disposable list.
def validateDomain (env : DNSEnv) (domain : String) : DomainValidationResult :=
  match env.lookupHost domain with
  | .error _ => { valid := false, reason := "domain does not resolve", metadata := [] }
  | .ok _ =>
    let md0 := [("domain_resolves", MetaVal.b true)]
    match env.lookupMX domain with
    | .error _ => { valid := false, reason := "no MX records found", metadata := md0 }
    | .ok mxRecords =>
      if mxRecords.isEmpty then
        { valid := false, reason := "no MX records found", metadata := md0 }
      else
        let mxHosts := mxRecords.map (fun mx => mx.host ++ " (priority: " ++ toString mx.pref ++ ")")
        let md1 := md0 ++ [("mx_records", MetaVal.strList mxHosts), ("mx_count", MetaVal.n mxRecords.length)]
        match suspiciousPatterns.find? (fun pat => goContains (goToLower domain) pat) with
        | some pat =>
          { valid := false, reason := "domain contains suspicious pattern: " ++ pat, metadata := md1 }
        | none =>
          if disposableDomains.contains (goToLower domain) then
            { valid := false, reason := "disposable email domain detected", metadata := md1 }
          else
            { valid := true, reason := "domain validation passed", metadata := md1 }

-- ValidateEmail (method on Validator). The byte lengths Go measures equal
-- the character counts here because any email reaching the length checks has
-- already matched the ASCII-only regex. The metadata copy loop writes the
-- domain-validation metadata into the result's initially empty map.
def ValidateEmail (env : DNSEnv) (email : String) : ValResult :=
  if !emailRegexMatch email then
    { email := email, status := "invalid", reason := "invalid email format" }
  else
    match goSplitChar '@' email with
    | [localPart, domain] =>
      if localPart.length = 0 ∨ localPart.length > 64 then
        { email := email, status := "invalid", reason := "invalid local part length" }
      else if domain.length = 0 ∨ domain.length > 253 then
        { email := email, status := "invalid", reason := "invalid domain length" }
      else
        let details := validateDomain env domain
        if !details.valid then
          { email := email, status := "invalid", reason := details.reason, metadata := details.metadata }
        else
          { email := email, status := "valid", reason := "email appears valid", metadata := details.metadata }
    | _ => { email := email, status := "invalid", reason := "invalid email format" }

-- The structural checks of ValidateEmail (its steps 1-4), in the order the
-- code evaluates them; the claims quantify over addresses on which they fail.
def structuralFail (email : String) : Bool :=
  !emailRegexMatch email ||
  (match goSplitChar '@' email with
   | [localPart, domain] =>
     decide (localPart.length = 0) || decide (localPart.length > 64) ||
     decide (domain.length = 0) || decide (domain.length > 253)
   | _ => true)

/-! ## enhanced_validator.go : the reputation cache and enhanced validator -/

-- The ipCache map of EnhancedValidator, keyed by IP. Assignment to a key
-- overwrites any previous entry (Go map semantics).
abbrev RepCache := List (String × IPReputationResult)

def cacheGet : RepCache → String → Option IPReputationResult
  | [], _ => none
  | (k, v) :: rest, ip => if k = ip then some v else cacheGet rest ip

def cacheErase : RepCache → String → RepCache
  | [], _ => []
  | (k, v) :: rest, ip =>
    if k = ip then cacheErase rest ip else (k, v) :: cacheErase rest ip

def cacheSet (c : RepCache) (ip : String) (r : IPReputationResult) : RepCache :=
  (ip, r) :: cacheErase c ip

-- checkIPReputationWithCache. A cached entry is served while
-- time.Since(cached.CheckedAt) < cacheExpiry; otherwise CheckIP runs and a
-- non-error result is stored (the error path returns without caching, but
-- CheckIP never errors, see above). The third component counts the CheckIP
-- invocations the call performed (0 or 1).
def checkIPReputationWithCache (penv : ReputationEnv) (ttl now : Nat) (cache : RepCache)
    (ip : String) : IPReputationResult × RepCache × Nat :=
  match cacheGet cache ip with
  | some cached =>
    if now - cached.checkedAt < ttl then (cached, cache, 0)
    else
      match CheckIP penv now ip with
      | .error e =>
        ({ ipAddress := ip, errMsg := "API error: " ++ e, checkedAt := now }, cache, 1)
      | .ok result => (result, cacheSet cache ip result, 1)
  | none =>
    match CheckIP penv now ip with
    | .error e =>
      ({ ipAddress := ip, errMsg := "API error: " ++ e, checkedAt := now }, cache, 1)
    | .ok result => (result, cacheSet cache ip result, 1)

-- The per-IP loop of ValidateEmailWithReputation: collects the reputation
-- results in order, threads the cache, and ORs together the per-IP high-risk
-- test (AbuseConfidenceScore > 75 || TotalReports > 50).
def repLoop (penv : ReputationEnv) (ttl now : Nat) :
    List String → RepCache → List IPReputationResult × RepCache × Bool
  | [], cache => ([], cache, false)
  | ip :: rest, cache =>
    let step := checkIPReputationWithCache penv ttl now cache ip
    let restRes := repLoop penv ttl now rest step.2.1
    (step.1 :: restRes.1, restRes.2.1,
     (decide (75 < step.1.abuseConfidenceScore) || decide (50 < step.1.totalReports)) || restRes.2.2)

-- The full environment of the enhanced validator: the DNS world shared with
-- the basic validator and GetMailServerIPs, plus the reputation provider.
structure FullEnv where
  dns : DNSEnv
  rep : ReputationEnv

-- ValidateEmailWithReputation. Returns the result together with the cache
-- left behind by the run.
def ValidateEmailWithReputation (env : FullEnv) (ttl now : Nat) (cache : RepCache)
    (email : String) : ValResult × RepCache :=
  let result := ValidateEmail env.dns email
  if result.status ≠ "valid" then (result, cache)
  else
    match goSplitChar '@' email with
    | [_, domain] =>
      (match GetMailServerIPs env.dns domain with
       | .error e =>
         ({ result with
            metadata := result.metadata ++
              [("ip_reputation_error", MetaVal.s ("Failed to lookup mail servers: " ++ e))] },
          cache)
       | .ok ips =>
         if ips.isEmpty then
           ({ result with status := "suspicious", reason := "no mail servers found for domain" },
            cache)
         else
           let loopRes := repLoop env.rep ttl now ips cache
           let result1 :=
             if loopRes.2.2 then
               { result with status := "suspicious", reason := "mail server IP has poor reputation" }
             else result
           ({ result1 with
              metadata := result1.metadata ++
                [("ip_reputation", MetaVal.repList loopRes.1),
                 ("mail_server_ips", MetaVal.strList ips)] },
            loopRes.2.1)
       )
    | _ => ({ result with status := "invalid", reason := "invalid email format" }, cache)

-- A provider exchange that did not produce a decoded response body; such an
-- exchange makes CheckIP return an error record with zero scores.
def fetchFails (penv : ReputationEnv) (ip : String) : Prop :=
  ∀ d, penv.fetch ip ≠ .success d

instance (penv : ReputationEnv) (ip : String) : Decidable (fetchFails penv ip) := by
  unfold fetchFails
  match penv.fetch ip with
  | .transportFailure m => exact isTrue (fun d h => by cases h)
  | .readFailure m => exact isTrue (fun d h => by cases h)
  | .apiFailure sc b => exact isTrue (fun d h => by cases h)
  | .decodeFailure m => exact isTrue (fun d h => by cases h)
  | .success d => exact isFalse (fun h => h d rfl)

-- A reputation record that does not trip the high-risk test.
def lowRisk (r : IPReputationResult) : Prop :=
  r.abuseConfidenceScore ≤ 75 ∧ r.totalReports ≤ 50

-- A failure record: it cannot trip the high-risk test (its scores are the
-- zero values) and it carries a non-empty error message as evidence.
def failRecord (r : IPReputationResult) : Prop :=
  r.abuseConfidenceScore ≤ 75 ∧ r.totalReports ≤ 50 ∧ r.errMsg ≠ ""

/-! ## Concrete environments and inputs used by the counterexamples and
witness instantiations below -/

def dnsAllFail : DNSEnv :=
  { lookupHost := fun _ => .error (.other "no such host")
    lookupMX := fun _ => .error (.other "no such host")
    lookupIP := fun _ => .error (.other "no such host") }

-- A DNS world in which user@good-mail.biz validates: the domain resolves,
-- has one MX record, and the MX host resolves to a single address.
def dnsGood : DNSEnv :=
  { lookupHost := fun d =>
      if d = "good-mail.biz" then .ok ["198.51.100.7"]
      else if d = "mx1.good-mail.biz" then .ok ["203.0.113.5"]
      else .error (.other "no such host")
    lookupMX := fun d =>
      if d = "good-mail.biz" then .ok [{ host := "mx1.good-mail.biz.", pref := 10 }]
      else .error (.other "no such host")
    lookupIP := fun _ => .error (.other "no such host") }

-- The provider reports the mail-server address with confidence score 90.
def repHigh : ReputationEnv :=
  { fetch := fun ip =>
      if ip = "203.0.113.5" then
        .success { ipAddress := "203.0.113.5", abuseConfidenceScore := 90, totalReports := 12,
                   countryCode := "ZZ", isp := "BadISP", domain := "bad.example" }
      else .transportFailure "unreachable" }

-- The same world except that the provider exchange for that address fails.
def repDown : ReputationEnv :=
  { fetch := fun _ => .transportFailure "connection refused" }

def envHigh : FullEnv := { dns := dnsGood, rep := repHigh }
def envDown : FullEnv := { dns := dnsGood, rep := repDown }

-- Mail targets and probe behaviour for the multi-server fallback claims:
-- the first server answers ambiguously, the second confirms, the third
-- would also answer ambiguously if it were ever probed.
def probeSeq : String → SMTPResult := fun h =>
  if h = "m2.seq.example" then { status := StatusValid, reason := "Mailbox confirmed", code := 250 }
  else { status := StatusRisky, reason := "Greylisted or temporary server issue", code := 451 }

def serversSeq : List MXRec :=
  [{ host := "m1.seq.example", pref := 10 },
   { host := "m2.seq.example", pref := 20 },
   { host := "m3.seq.example", pref := 30 }]

def probeAllRisky : String → SMTPResult := fun h =>
  { status := StatusRisky, reason := "Could not connect to SMTP server " ++ h, code := 0 }

-- A domain whose MX lookup succeeds with an empty record list while its A
-- lookup reports the name as non-existent.
def dnsEmptyMXNoA : DNSEnv :=
  { lookupHost := fun _ => .error (.other "no such host")
    lookupMX := fun _ => .ok []
    lookupIP := fun _ => .error (.dns true false "no such host") }

-- A domain whose MX lookup times out and whose A lookup also fails.
def dnsMXTimeout : DNSEnv :=
  { lookupHost := fun _ => .error (.other "no such host")
    lookupMX := fun _ => .error (.dns false true "i/o timeout")
    lookupIP := fun _ => .error (.dns true false "no such host") }

-- Thirteen MX records with a priority tie between the first two.
def mxTie : List MXRec :=
  [{ host := "mxa.tie.example", pref := 10 }, { host := "mxb.tie.example", pref := 10 },
   { host := "mx03.tie.example", pref := 5 }, { host := "mx04.tie.example", pref := 20 },
   { host := "mx05.tie.example", pref := 30 }, { host := "mx06.tie.example", pref := 40 },
   { host := "mx07.tie.example", pref := 50 }, { host := "mx08.tie.example", pref := 60 },
   { host := "mx09.tie.example", pref := 70 }, { host := "mx10.tie.example", pref := 80 },
   { host := "mx11.tie.example", pref := 90 }, { host := "mx12.tie.example", pref := 100 },
   { host := "mx13.tie.example", pref := 110 }]

-- The same records sorted ascending by priority but with the two
-- equal-priority records in the opposite of their original order.
def mxTieSwapped : List MXRec :=
  [{ host := "mx03.tie.example", pref := 5 }, { host := "mxb.tie.example", pref := 10 },
   { host := "mxa.tie.example", pref := 10 }, { host := "mx04.tie.example", pref := 20 },
   { host := "mx05.tie.example", pref := 30 }, { host := "mx06.tie.example", pref := 40 },
   { host := "mx07.tie.example", pref := 50 }, { host := "mx08.tie.example", pref := 60 },
   { host := "mx09.tie.example", pref := 70 }, { host := "mx10.tie.example", pref := 80 },
   { host := "mx11.tie.example", pref := 90 }, { host := "mx12.tie.example", pref := 100 },
   { host := "mx13.tie.example", pref := 110 }]

def dnsTie : DNSEnv :=
  { lookupHost := fun _ => .error (.other "no such host")
    lookupMX := fun d => if d = "tie.example" then .ok mxTie else .error (.other "no such host")
    lookupIP := fun _ => .error (.other "no such host") }

-- A domain with three MX hosts: the middle one does not resolve, and the
-- two resolvable hosts share one address.
def dnsMulti : DNSEnv :=
  { lookupHost := fun h =>
      if h = "a.multi.example" then .ok ["192.0.2.1", "192.0.2.2"]
      else if h = "b.multi.example" then .ok ["192.0.2.2", "192.0.2.3"]
      else .error (.other "no such host")
    lookupMX := fun d =>
      if d = "multi.example" then
        .ok [{ host := "a.multi.example.", pref := 1 },
             { host := "bad.multi.example.", pref := 2 },
             { host := "b.multi.example.", pref := 3 }]
      else .error (.other "no such host")
    lookupIP := fun _ => .error (.other "no such host") }

def mxMulti : List MXRec :=
  [{ host := "a.multi.example.", pref := 1 },
   { host := "bad.multi.example.", pref := 2 },
   { host := "b.multi.example.", pref := 3 }]

-- A provider returning a benign record, and a cache holding a fresh benign
-- entry, for exercising the cache lookup paths.
def repBenign : ReputationEnv :=
  { fetch := fun ip =>
      .success { ipAddress := ip, abuseConfidenceScore := 3, totalReports := 1,
                 countryCode := "AA", isp := "OkISP", domain := "ok.example" } }

def recCached : IPReputationResult :=
  { ipAddress := "203.0.113.9", abuseConfidenceScore := 3, totalReports := 1, checkedAt := 40 }

def cacheOne : RepCache := [("203.0.113.9", recCached)]

/-! ## Theorems -/

-- If a decisive probe exists, smtpLoop returns the first one's outcome and
-- probes exactly the servers up to and including it.
theorem smtpLoop_first (probe : String → SMTPResult) :
    ∀ (servers : List MXRec) (i : Nat) (hi : i < servers.length),
    isDecisive (probe (servers.get ⟨i, hi⟩).host) →
    (∀ j (hj : j < i), ¬ isDecisive (probe (servers.get ⟨j, Nat.lt_trans hj hi⟩).host)) →
    smtpLoop probe servers =
      (probe (servers.get ⟨i, hi⟩).host, (servers.take (i + 1)).map MXRec.host) := by
  intro servers
  induction servers with
  | nil => intro i hi; exact absurd hi (by simp)
  | cons s rest ih =>
    intro i hi hdec hfirst
    cases i with
    | zero =>
      simp only [List.get] at hdec ⊢
      simp only [smtpLoop, if_pos hdec, List.take, List.map]
    | succ i' =>
      have h0 : ¬ isDecisive (probe s.host) := by
        have := hfirst 0 (Nat.succ_pos i')
        simpa using this
      have hi' : i' < rest.length := Nat.lt_of_succ_lt_succ hi
      have hdec' : isDecisive (probe (rest.get ⟨i', hi'⟩).host) := by
        simpa using hdec
      have hfirst' : ∀ j (hj : j < i'),
          ¬ isDecisive (probe (rest.get ⟨j, Nat.lt_trans hj hi'⟩).host) := by
        intro j hj
        have := hfirst (j + 1) (Nat.succ_lt_succ hj)
        simpa using this
      have hrec := ih i' hi' hdec' hfirst'
      simp [smtpLoop, if_neg h0, hrec]

-- If no probe is decisive, smtpLoop probes every server and reports the
-- all-uncertain outcome.
theorem smtpLoop_all_risky (probe : String → SMTPResult) :
    ∀ (servers : List MXRec), (∀ s ∈ servers, ¬ isDecisive (probe s.host)) →
    smtpLoop probe servers =
      ({ status := StatusRisky, reason := "All SMTP servers returned uncertain results", code := 0 },
       servers.map MXRec.host) := by
  intro servers
  induction servers with
  | nil => intro _; rfl
  | cons s rest ih =>
    intro h
    have h0 : ¬ isDecisive (probe s.host) := h s (List.mem_cons_self s rest)
    have hrec := ih (fun x hx => h x (List.mem_cons_of_mem s hx))
    simp [smtpLoop, if_neg h0, hrec]

/-- C1: On a non-empty server list whose first Confirmed-or-Rejected probe
outcome sits at index i, CheckSMTP probes exactly the servers at indices
0..i in list order (Inconclusive outcomes at the earlier indices do not stop
the iteration), returns that decisive outcome, and never probes any server
past index i. -/
theorem checkSMTP_stops_at_first_decisive (probe : String → SMTPResult)
    (servers : List MXRec) (i : Nat) (hi : i < servers.length)
    (hdec : isDecisive (probe (servers.get ⟨i, hi⟩).host))
    (hfirst : ∀ j (hj : j < i), ¬ isDecisive (probe (servers.get ⟨j, Nat.lt_trans hj hi⟩).host)) :
    CheckSMTP probe servers =
      (probe (servers.get ⟨i, hi⟩).host, (servers.take (i + 1)).map MXRec.host) := by
  have hne : ¬ servers.isEmpty := by
    cases servers with
    | nil => exact absurd hi (by simp)
    | cons a l => simp
  simp only [CheckSMTP, hne, Bool.false_eq_true, if_false]
  exact smtpLoop_first probe servers i hi hdec hfirst

/-- C1 witness: with three priority-ordered servers whose probes answer
Inconclusive, Confirmed, Inconclusive, CheckSMTP returns the second server's
Confirmed outcome and the probe trace covers exactly the first two hosts. -/
theorem checkSMTP_stops_at_first_decisive_inst :
    CheckSMTP probeSeq serversSeq =
      ({ status := StatusValid, reason := "Mailbox confirmed", code := 250 },
       ["m1.seq.example", "m2.seq.example"]) := by
  have hi : (1 : Nat) < serversSeq.length := by decide
  have hdec : isDecisive (probeSeq (serversSeq.get ⟨1, hi⟩).host) :=
    (by decide : isDecisive (probeSeq "m2.seq.example"))
  have hfirst : ∀ j (hj : j < 1),
      ¬ isDecisive (probeSeq (serversSeq.get ⟨j, Nat.lt_trans hj hi⟩).host) := by
    intro j hj
    have hj0 : j = 0 := by omega
    subst hj0
    exact (by decide : ¬ isDecisive (probeSeq "m1.seq.example"))
  have h := checkSMTP_stops_at_first_decisive probeSeq serversSeq 1 hi hdec hfirst
  simpa using h

/-- C3 counterexample: on the empty server list CheckSMTP does not return the
Risky all-uncertain verdict the claim requires; it returns Invalid with
reason "No SMTP servers found for the domain". -/
theorem checkSMTP_empty_list_cex :
    CheckSMTP probeAllRisky [] =
      ({ status := StatusInvalid, reason := "No SMTP servers found for the domain", code := 0 }, []) ∧
    StatusInvalid ≠ StatusRisky := by
  exact ⟨rfl, by decide⟩

/-- C3 amended: for every non-empty server list in which no probe returns a
Confirmed or Rejected outcome, CheckSMTP probes every server and returns
Risky with reason "All SMTP servers returned uncertain results"; for the
empty list it instead returns Invalid with reason "No SMTP servers found for
the domain". -/
theorem checkSMTP_all_inconclusive (probe : String → SMTPResult) (servers : List MXRec) :
    (servers = [] →
      CheckSMTP probe servers =
        ({ status := StatusInvalid, reason := "No SMTP servers found for the domain", code := 0 }, [])) ∧
    (servers ≠ [] → (∀ s ∈ servers, ¬ isDecisive (probe s.host)) →
      CheckSMTP probe servers =
        ({ status := StatusRisky, reason := "All SMTP servers returned uncertain results", code := 0 },
         servers.map MXRec.host)) := by
  constructor
  · intro h; subst h; rfl
  · intro hne hall
    have hemp : ¬ servers.isEmpty := by
      cases servers with
      | nil => exact absurd rfl hne
      | cons a l => simp
    simp only [CheckSMTP, hemp, Bool.false_eq_true, if_false]
    exact smtpLoop_all_risky probe servers hall

/-- C3 witness: three servers, all probes Inconclusive: the verdict is Risky
with the all-uncertain reason and every server was probed. -/
theorem checkSMTP_all_inconclusive_inst :
    CheckSMTP probeAllRisky serversSeq =
      ({ status := StatusRisky, reason := "All SMTP servers returned uncertain results", code := 0 },
       ["m1.seq.example", "m2.seq.example", "m3.seq.example"]) := by
  have h := (checkSMTP_all_inconclusive probeAllRisky serversSeq).2 (by decide)
    (by intro s hs; fin_cases hs <;> decide)
  simpa using h

/-- C2 counterexample: at reply code 600 the code classifies the response as
"Server rejected the request" (its branch is code >= 500), while the claim's
table, which reserves that reason for 5xx codes, puts 600 in the
unknown-response bucket. -/
theorem analyzeSMTPResponse_table_cex :
    analyzeSMTPResponse "user@dom.example" 600 "mail not accepted" ≠
      specClassification 600 "mail not accepted" ∧
    (analyzeSMTPResponse "user@dom.example" 600 "mail not accepted").reason =
      "Server rejected the request: 600 mail not accepted" := by
  exact ⟨by decide, rfl⟩

/-- C2 amended: analyzeSMTPResponse classifies the recipient-step reply code
per the claim's table with one change: every code of 500 and above that is
not 550, 551, 552 or 553 (not only the 5xx range) yields Inconclusive with
the server-rejected reason; 2xx yields Confirmed, 550/551/553 Rejected,
552 Inconclusive (quota), 400-499 Inconclusive (greylisted), and every
remaining code, including 0, Inconclusive (unknown response). -/
theorem analyzeSMTPResponse_classification :
    ∀ (email : String) (code : Int) (msg : String),
    analyzeSMTPResponse email code msg = specClassificationAmended code msg := by
  intro email code msg
  unfold analyzeSMTPResponse specClassificationAmended
  split_ifs <;> first | rfl | omega

/-- C4: For every address failing the structural syntax check of
ValidateEmail (regex mismatch, ill-formed split, zero or over-length local
part, zero or over-length domain), the result is the invalid verdict and is
identical under every DNS environment: no lookup influences it. -/
theorem validateEmail_structural_fail_env_independent
    (env1 env2 : DNSEnv) (email : String) (h : structuralFail email = true) :
    ValidateEmail env1 email = ValidateEmail env2 email ∧
    (ValidateEmail env1 email).status = "invalid" := by
  unfold structuralFail at h
  unfold ValidateEmail
  cases hre : emailRegexMatch email with
  | false => simp [hre]
  | true =>
    rw [hre] at h
    simp only [Bool.not_true, Bool.false_or] at h
    cases hsp : goSplitChar '@' email with
    | nil => simp [hsp]
    | cons a l =>
      cases l with
      | nil => simp [hsp]
      | cons b l2 =>
        cases l2 with
        | cons c l3 => simp [hsp]
        | nil =>
          rw [hsp] at h
          simp only [Bool.or_eq_true, decide_eq_true_eq, gt_iff_lt] at h
          by_cases hl : a.length = 0 ∨ 64 < a.length
          · simp [hsp, hl]
          · by_cases hd : b.length = 0 ∨ 253 < b.length
            · simp [hsp, hl, hd]
            · exfalso
              rcases h with ((h | h) | h) | h
              · exact hl (Or.inl h)
              · exact hl (Or.inr h)
              · exact hd (Or.inl h)
              · exact hd (Or.inr h)

/-- C4 witness: a regex-failing address and an address with a 65-character
local part are both rejected as invalid, with the same result in a fully
working DNS world and in a fully failing one. -/
theorem validateEmail_structural_fail_env_independent_inst :
    structuralFail "not-an-email-address" = true ∧
    structuralFail
      "aaaaaaaaaaaaaaaaaaaaaaaaaaaaaaaaaaaaaaaaaaaaaaaaaaaaaaaaaaaaaaaaa@long-local.example" = true ∧
    ValidateEmail dnsGood "not-an-email-address" = ValidateEmail dnsAllFail "not-an-email-address" ∧
    (ValidateEmail dnsGood "not-an-email-address").status = "invalid" ∧
    (ValidateEmail dnsGood
      "aaaaaaaaaaaaaaaaaaaaaaaaaaaaaaaaaaaaaaaaaaaaaaaaaaaaaaaaaaaaaaaaa@long-local.example").status =
      "invalid" := by
  refine ⟨by decide, by decide, ?_, ?_, ?_⟩
  · exact (validateEmail_structural_fail_env_independent dnsGood dnsAllFail _ (by decide)).1
  · exact (validateEmail_structural_fail_env_independent dnsGood dnsAllFail _ (by decide)).2
  · exact (validateEmail_structural_fail_env_independent dnsGood dnsAllFail _ (by decide)).2

-- ValidateDomain returns an error exactly when both the MX path and the A
-- path fail, and then it is the MX-path error.
theorem validateDomainGo_some_iff (env : DNSEnv) (domain : String) (msg : String) :
    ValidateDomainGo env domain = some msg ↔
    checkMXError env domain = some msg ∧ checkAError env domain ≠ none := by
  unfold ValidateDomainGo
  cases hmx : checkMXError env domain with
  | none => simp
  | some e =>
    cases ha : checkAError env domain with
    | none => simp
    | some e2 => simp

-- CheckMX reports "domain does not exist" exactly when the MX lookup failed
-- with a DNS not-found error.
theorem checkMXError_notfound_iff (env : DNSEnv) (domain : String) :
    checkMXError env domain = some "domain does not exist" ↔
    ∃ t m, env.lookupMX (normalizeDomain domain) = .error (.dns true t m) := by
  unfold checkMXError
  cases hlk : env.lookupMX (normalizeDomain domain) with
  | error e =>
    constructor
    · intro h
      have hme : mxErrMsg e = "domain does not exist" := by
        injection h
      cases e with
      | dns nf tm m =>
        cases nf with
        | true => exact ⟨tm, m, rfl⟩
        | false =>
          exfalso
          cases tm with
          | true => simp [mxErrMsg] at hme
          | false => simp [mxErrMsg] at hme
      | other m => exact absurd hme (by simp [mxErrMsg])
    · rintro ⟨t, m, hm⟩
      have he : e = NetErr.dns true t m := by injection hm
      subst he
      rfl
  | ok mxs =>
    constructor
    · intro h
      cases mxs with
      | nil => simp at h
      | cons x xs => simp at h
    · rintro ⟨t, m, hm⟩
      exact Except.noConfusion hm

/-- C5 counterexample: for a domain whose MX lookup succeeds with an empty
record list and whose A lookup reports the name non-existent — a domain
with neither MX nor A records — ValidateDomain fails with "no MX records
found for the domain", not with the DomainNotFound error ("domain does not
exist") the claim requires. -/
theorem validateDomainGo_notfound_cex :
    dnsEmptyMXNoA.lookupMX (normalizeDomain "dead.example") = .ok [] ∧
    dnsEmptyMXNoA.lookupIP (normalizeDomain "dead.example") = .error (.dns true false "no such host") ∧
    ValidateDomainGo dnsEmptyMXNoA "dead.example" = some "no MX records found for the domain" ∧
    some "no MX records found for the domain" ≠ some "domain does not exist" := by
  exact ⟨rfl, rfl, rfl, by decide⟩

/-- C5 amended: domain validation succeeds whenever the MX path succeeds or
the A lookup succeeds (in particular whenever the domain has A records, even
with no MX records); when both fail it returns the MX-path error, and that
error is the DomainNotFound error "domain does not exist" exactly when the
MX lookup itself reported the name non-existent. -/
theorem validateDomainGo_fallback (env : DNSEnv) (domain : String) :
    (checkMXError env domain = none → ValidateDomainGo env domain = none) ∧
    (checkAError env domain = none → ValidateDomainGo env domain = none) ∧
    (∀ e1 e2, checkMXError env domain = some e1 → checkAError env domain = some e2 →
      ValidateDomainGo env domain = some e1) ∧
    (ValidateDomainGo env domain = some "domain does not exist" ↔
      ((∃ t m, env.lookupMX (normalizeDomain domain) = .error (.dns true t m)) ∧
       checkAError env domain ≠ none)) := by
  refine ⟨?_, ?_, ?_, ?_⟩
  · intro h; unfold ValidateDomainGo; rw [h]
  · intro h
    unfold ValidateDomainGo
    cases hmx : checkMXError env domain with
    | none => rfl
    | some e => rw [h]
  · intro e1 e2 h1 h2
    unfold ValidateDomainGo
    rw [h1, h2]
  · rw [validateDomainGo_some_iff, checkMXError_notfound_iff]

/-- C5 witness: a domain whose MX lookup times out and whose A lookup fails
gets the MX timeout error, and a healthy domain validates. -/
theorem validateDomainGo_fallback_inst :
    ValidateDomainGo dnsMXTimeout "dead.example" = some "DNS lookup timeout" ∧
    ValidateDomainGo dnsGood "good-mail.biz" = none := by
  constructor
  · exact (validateDomainGo_fallback dnsMXTimeout "dead.example").2.2.1
      "DNS lookup timeout" "domain does not exist" rfl rfl
  · exact (validateDomainGo_fallback dnsGood "good-mail.biz").1 rfl

-- A sort.Slice-sorted list is globally pairwise non-decreasing in priority.
theorem mxSorted_pairwise : ∀ l : List MXRec, mxSorted l = true →
    l.Pairwise (fun a b => a.pref ≤ b.pref) := by
  intro l
  induction l with
  | nil => intro _; exact List.Pairwise.nil
  | cons a rest ih =>
    intro h
    cases rest with
    | nil => exact List.pairwise_singleton _ _
    | cons b rest2 =>
      unfold mxSorted at h
      simp only [Bool.and_eq_true, Bool.not_eq_true'] at h
      obtain ⟨hab, hrest⟩ := h
      have hab' : a.pref ≤ b.pref := by
        unfold sortLessMX at hab
        exact Nat.le_of_not_lt (by simpa using hab)
      have hp := ih hrest
      refine List.Pairwise.cons ?_ hp
      intro x hx
      rcases List.mem_cons.mp hx with hxb | hx2
      · subst hxb; exact hab'
      · have hbx : b.pref ≤ x.pref := (List.pairwise_cons.mp hp).1 x hx2
        exact Nat.le_trans hab' hbx

/-- C6 counterexample: on a thirteen-record lookup result with a priority
tie, the list with the two tied records in the opposite of their original
order satisfies everything CheckMX guarantees about its output (the
sort.Slice contract: a permutation, non-decreasing in priority), yet it
differs from the stable sort the claim promises. sort.Slice is documented as
not guaranteed to be stable, so equal-priority order is not preserved. -/
theorem checkMX_stable_sort_cex :
    CheckMXRel dnsTie "tie.example" (.ok mxTieSwapped) ∧
    (Except.ok mxTieSwapped : Except String (List MXRec)) ≠ Except.ok (stableSortByPref mxTie) := by
  constructor
  · refine ⟨?_, ?_, ?_⟩
    · intro e h
      rw [show dnsTie.lookupMX (normalizeDomain "tie.example") = Except.ok mxTie from rfl] at h
      exact Except.noConfusion h
    · intro h
      rw [show dnsTie.lookupMX (normalizeDomain "tie.example") = Except.ok mxTie from rfl] at h
      injection h with h1
      exact absurd h1 (by decide)
    · intro mxs h hne
      have hm : mxs = mxTie := by
        rw [show dnsTie.lookupMX (normalizeDomain "tie.example") = Except.ok mxTie from rfl] at h
        injection h with h1
        exact h1.symm
      subst hm
      exact ⟨mxTieSwapped, ⟨by decide, by decide⟩, rfl⟩
  · intro h
    injection h with h1
    exact absurd h1 (by decide)

/-- C6 amended: for every successful MX lookup, every list CheckMX may
return is a permutation of the looked-up records sorted ascending by
priority value; the relative order of equal-priority records is not
guaranteed (sort.Slice is not a stable sort). -/
theorem checkMX_sorted_perm (env : DNSEnv) (domain : String) (out : Except String (List MXRec))
    (mxs l : List MXRec)
    (hrel : CheckMXRel env domain out)
    (hlk : env.lookupMX (normalizeDomain domain) = .ok mxs)
    (hout : out = .ok l) :
    mxs.Perm l ∧ l.Pairwise (fun a b => a.pref ≤ b.pref) := by
  rcases hrel with ⟨_, hempty, hok⟩
  cases mxs with
  | nil =>
    have h := hempty hlk
    rw [hout] at h
    exact Except.noConfusion h
  | cons x xs =>
    obtain ⟨sorted, ⟨hperm, hsorted⟩, hsort⟩ := hok (x :: xs) hlk (by simp)
    rw [hout] at hsort
    have hl : l = sorted := by injection hsort
    subst hl
    exact ⟨hperm, mxSorted_pairwise l hsorted⟩

/-- C6 witness: the tie-breaking output for the thirteen-record lookup is a
permutation of the input and pairwise non-decreasing in priority. -/
theorem checkMX_sorted_perm_inst :
    mxTie.Perm mxTieSwapped ∧
    mxTieSwapped.Pairwise (fun a b => a.pref ≤ b.pref) := by
  refine checkMX_sorted_perm dnsTie "tie.example" (.ok mxTieSwapped) mxTie mxTieSwapped
    ⟨?_, ?_, ?_⟩ rfl rfl
  · intro e h
    rw [show dnsTie.lookupMX (normalizeDomain "tie.example") = Except.ok mxTie from rfl] at h
    exact Except.noConfusion h
  · intro h
    rw [show dnsTie.lookupMX (normalizeDomain "tie.example") = Except.ok mxTie from rfl] at h
    injection h with h1
    exact absurd h1 (by decide)
  · intro mxs h hne
    have hm : mxs = mxTie := by
      rw [show dnsTie.lookupMX (normalizeDomain "tie.example") = Except.ok mxTie from rfl] at h
      injection h with h1
      exact h1.symm
    subst hm
    exact ⟨mxTieSwapped, ⟨by decide, by decide⟩, rfl⟩

-- Adding addresses with the seen-set check preserves distinctness.
theorem addUnique_nodup : ∀ (addrs ips : List String), ips.Nodup → (addUnique ips addrs).Nodup := by
  intro addrs
  induction addrs with
  | nil => intro ips h; exact h
  | cons a rest ih =>
    intro ips h
    simp only [addUnique, List.foldl_cons] at ih ⊢
    by_cases ha : a ∈ ips
    · simp only [if_pos ha]
      exact ih ips h
    · simp only [if_neg ha]
      refine ih _ ?_
      simp [List.nodup_append, h, ha]

theorem gatherIPs_nodup (env : DNSEnv) : ∀ (mxs : List MXRec) (ips : List String),
    ips.Nodup → (gatherIPs env mxs ips).Nodup := by
  intro mxs
  induction mxs with
  | nil => intro ips h; exact h
  | cons mx rest ih =>
    intro ips h
    rcases hlk : env.lookupHost (trimSuffixDot mx.host) with e | addrs
    · simp only [gatherIPs, hlk]
      exact ih ips h
    · simp only [gatherIPs, hlk]
      exact ih _ (addUnique_nodup addrs ips h)

-- MX hosts that fail to resolve contribute nothing: gathering over the full
-- host list equals gathering over the resolvable hosts only.
theorem gatherIPs_filter (env : DNSEnv) : ∀ (mxs : List MXRec) (ips : List String),
    gatherIPs env mxs ips =
    gatherIPs env (mxs.filter (fun mx => lookupOk (env.lookupHost (trimSuffixDot mx.host)))) ips := by
  intro mxs
  induction mxs with
  | nil => intro ips; rfl
  | cons mx rest ih =>
    intro ips
    rcases hlk : env.lookupHost (trimSuffixDot mx.host) with e | addrs
    · have hp : lookupOk (env.lookupHost (trimSuffixDot mx.host)) = false := by
        rw [hlk]; rfl
      simp only [gatherIPs, hlk, List.filter_cons, hp]
      exact ih ips
    · have hp : lookupOk (env.lookupHost (trimSuffixDot mx.host)) = true := by
        rw [hlk]; rfl
      simp only [gatherIPs, hlk, List.filter_cons, hp, if_pos]
      rw [ih (addUnique ips addrs)]

/-- C10: whenever the MX lookup succeeds, GetMailServerIPs succeeds, its
result is exactly what the resolvable MX hosts contribute (hosts that fail
to resolve are skipped without failing the call or affecting the others),
and the returned address list contains no duplicates. -/
theorem getMailServerIPs_nodup_skip (env : DNSEnv) (domain : String) (mxs : List MXRec)
    (hlk : env.lookupMX domain = .ok mxs) :
    GetMailServerIPs env domain =
      .ok (gatherIPs env
        (mxs.filter (fun mx => lookupOk (env.lookupHost (trimSuffixDot mx.host)))) []) ∧
    ∀ l, GetMailServerIPs env domain = .ok l → l.Nodup := by
  constructor
  · unfold GetMailServerIPs
    rw [hlk]
    exact congrArg Except.ok (gatherIPs_filter env mxs [])
  · intro l hl
    unfold GetMailServerIPs at hl
    rw [hlk] at hl
    injection hl with h1
    exact h1 ▸ gatherIPs_nodup env mxs [] (by simp)

/-- C10 witness: with three MX hosts of which the middle one does not
resolve and the resolvable two share one address, the call succeeds with the
three distinct addresses in first-seen order. -/
theorem getMailServerIPs_nodup_skip_inst :
    GetMailServerIPs dnsMulti "multi.example" = .ok ["192.0.2.1", "192.0.2.2", "192.0.2.3"] ∧
    (["192.0.2.1", "192.0.2.2", "192.0.2.3"] : List String).Nodup := by
  constructor
  · rfl
  · exact (getMailServerIPs_nodup_skip dnsMulti "multi.example" mxMulti rfl).2
      ["192.0.2.1", "192.0.2.2", "192.0.2.3"] rfl

-- CheckIP always returns a record (never a Go error) stamped with the
-- current time: every failure mode is encoded in the record's error field.
theorem checkIP_ok (penv : ReputationEnv) (now : Nat) (ip : String) :
    ∃ r, CheckIP penv now ip = .ok r ∧ r.checkedAt = now := by
  unfold CheckIP
  by_cases hp : goParseIPOk ip = false
  · rw [if_pos hp]
    exact ⟨_, rfl, rfl⟩
  · rw [if_neg hp]
    cases penv.fetch ip <;> exact ⟨_, rfl, rfl⟩

theorem cacheGet_cons (k : String) (v : IPReputationResult) (rest : RepCache) (ip : String) :
    cacheGet ((k, v) :: rest) ip = if k = ip then some v else cacheGet rest ip := rfl

theorem cacheErase_cons (k : String) (v : IPReputationResult) (rest : RepCache) (ip : String) :
    cacheErase ((k, v) :: rest) ip =
      if k = ip then cacheErase rest ip else (k, v) :: cacheErase rest ip := rfl

theorem cacheGet_set_self (c : RepCache) (ip : String) (r : IPReputationResult) :
    cacheGet (cacheSet c ip r) ip = some r := by
  unfold cacheSet
  rw [cacheGet_cons, if_pos rfl]

theorem cacheErase_get_other : ∀ (c : RepCache) (ip ip2 : String), ip2 ≠ ip →
    cacheGet (cacheErase c ip) ip2 = cacheGet c ip2 := by
  intro c
  induction c with
  | nil => intro ip ip2 h; rfl
  | cons e rest ih =>
    intro ip ip2 h
    obtain ⟨k, v⟩ := e
    rw [cacheGet_cons]
    by_cases hk : k = ip
    · rw [cacheErase_cons, if_pos hk]
      rw [ih ip ip2 h]
      rw [if_neg (by rw [hk]; exact fun he => h he.symm)]
    · rw [cacheErase_cons, if_neg hk]
      rw [cacheGet_cons]
      by_cases h2 : k = ip2
      · rw [if_pos h2, if_pos h2]
      · rw [if_neg h2, if_neg h2]
        exact ih ip ip2 h

theorem cacheGet_set_other (c : RepCache) (ip ip2 : String) (r : IPReputationResult)
    (h : ip2 ≠ ip) :
    cacheGet (cacheSet c ip r) ip2 = cacheGet c ip2 := by
  unfold cacheSet
  rw [cacheGet_cons, if_neg (fun he => h he.symm)]
  exact cacheErase_get_other c ip ip2 h

/-- C9: a cache lookup whose stored entry is younger than the TTL returns
the cached record with no external call and leaves the cache unchanged; a
lookup with no entry, or whose entry's age has reached the TTL, performs
exactly one external call, returns its result (success or failure record)
stamped with the current time, and stores it under that IP, overwriting any
prior entry and leaving every other IP's entry untouched. -/
theorem checkIPReputationWithCache_spec (penv : ReputationEnv) (ttl now : Nat)
    (cache : RepCache) (ip : String) :
    (∀ cached, cacheGet cache ip = some cached → now - cached.checkedAt < ttl →
      checkIPReputationWithCache penv ttl now cache ip = (cached, cache, 0)) ∧
    ((cacheGet cache ip = none ∨
      ∃ cached, cacheGet cache ip = some cached ∧ ttl ≤ now - cached.checkedAt) →
      ∃ fresh, CheckIP penv now ip = .ok fresh ∧ fresh.checkedAt = now ∧
        checkIPReputationWithCache penv ttl now cache ip = (fresh, cacheSet cache ip fresh, 1) ∧
        cacheGet (cacheSet cache ip fresh) ip = some fresh ∧
        ∀ ip2, ip2 ≠ ip → cacheGet (cacheSet cache ip fresh) ip2 = cacheGet cache ip2) := by
  constructor
  · intro cached hc hfresh
    unfold checkIPReputationWithCache
    rw [hc]
    simp [hfresh]
  · intro hmiss
    obtain ⟨fresh, hok, hnow⟩ := checkIP_ok penv now ip
    refine ⟨fresh, hok, hnow, ?_, cacheGet_set_self cache ip fresh,
      fun ip2 h2 => cacheGet_set_other cache ip ip2 fresh h2⟩
    unfold checkIPReputationWithCache
    rcases hmiss with hnone | ⟨cached, hc, hexp⟩
    · rw [hnone, hok]
    · rw [hc]
      have hn : ¬ (now - cached.checkedAt < ttl) := Nat.not_lt.mpr hexp
      simp only [if_neg hn, hok]

/-- C9 witness: a fresh entry (age 10, TTL one day) is served from the cache
with no external call; on the empty cache one external call is made and its
result is stored under the IP with the current timestamp. -/
theorem checkIPReputationWithCache_spec_inst :
    checkIPReputationWithCache repBenign 86400 50 cacheOne "203.0.113.9" =
      (recCached, cacheOne, 0) ∧
    ∃ fresh, CheckIP repBenign 50 "203.0.113.9" = .ok fresh ∧ fresh.checkedAt = 50 ∧
      checkIPReputationWithCache repBenign 86400 50 [] "203.0.113.9" =
        (fresh, cacheSet [] "203.0.113.9" fresh, 1) ∧
      cacheGet (cacheSet [] "203.0.113.9" fresh) "203.0.113.9" = some fresh ∧
      ∀ ip2, ip2 ≠ "203.0.113.9" →
        cacheGet (cacheSet [] "203.0.113.9" fresh) ip2 = cacheGet ([] : RepCache) ip2 := by
  constructor
  · exact (checkIPReputationWithCache_spec repBenign 86400 50 cacheOne "203.0.113.9").1
      recCached rfl (by decide)
  · exact (checkIPReputationWithCache_spec repBenign 86400 50 [] "203.0.113.9").2 (Or.inl rfl)

theorem string_prefix_ne_empty (a m : String) (ha : a.data ≠ []) : a ++ m ≠ "" := by
  intro h
  apply ha
  have hd : (a ++ m).data = ("" : String).data := congrArg String.data h
  rw [String.data_append] at hd
  exact (List.append_eq_nil.mp hd).1

theorem string_append_data_ne_nil_right (x y : String) (hy : y.data ≠ []) :
    (x ++ y).data ≠ [] := by
  rw [String.data_append]
  intro h
  exact hy (List.append_eq_nil.mp h).2

-- When the provider exchange fails, CheckIP returns a failure record: zero
-- scores (so it can never look high-risk) and a non-empty error message.
theorem checkIP_fail_record (penv : ReputationEnv) (now : Nat) (ip : String)
    (hf : fetchFails penv ip) :
    ∃ r, CheckIP penv now ip = .ok r ∧ failRecord r := by
  unfold CheckIP
  by_cases hp : goParseIPOk ip = false
  · rw [if_pos hp]
    exact ⟨_, rfl, (by decide : (0 : Int) ≤ 75), (by decide : (0 : Int) ≤ 50),
      (by decide : ("invalid IP address format" : String) ≠ "")⟩
  · rw [if_neg hp]
    cases hfo : penv.fetch ip with
    | transportFailure m =>
      exact ⟨_, rfl, (by decide : (0 : Int) ≤ 75), (by decide : (0 : Int) ≤ 50),
        string_prefix_ne_empty _ m (by decide)⟩
    | readFailure m =>
      exact ⟨_, rfl, (by decide : (0 : Int) ≤ 75), (by decide : (0 : Int) ≤ 50),
        string_prefix_ne_empty _ m (by decide)⟩
    | apiFailure sc body =>
      exact ⟨_, rfl, (by decide : (0 : Int) ≤ 75), (by decide : (0 : Int) ≤ 50),
        string_prefix_ne_empty _ body
          (string_append_data_ne_nil_right _ " - " (by decide))⟩
    | decodeFailure m =>
      exact ⟨_, rfl, (by decide : (0 : Int) ≤ 75), (by decide : (0 : Int) ≤ 50),
        string_prefix_ne_empty _ m (by decide)⟩
    | success d => exact absurd hfo (hf d)

theorem cacheGet_mem : ∀ (c : RepCache) (ip : String) (v : IPReputationResult),
    cacheGet c ip = some v → ∃ k, (k, v) ∈ c := by
  intro c
  induction c with
  | nil => intro ip v h; cases h
  | cons e rest ih =>
    intro ip v h
    obtain ⟨k, w⟩ := e
    rw [cacheGet_cons] at h
    by_cases hk : k = ip
    · rw [if_pos hk] at h
      injection h with h1
      exact ⟨k, by rw [h1]; exact List.mem_cons_self _ _⟩
    · rw [if_neg hk] at h
      obtain ⟨k2, hm⟩ := ih ip v h
      exact ⟨k2, List.mem_cons_of_mem _ hm⟩

theorem cacheErase_mem : ∀ (c : RepCache) (ip : String) (e : String × IPReputationResult),
    e ∈ cacheErase c ip → e ∈ c := by
  intro c
  induction c with
  | nil => intro ip e h; cases h
  | cons f rest ih =>
    intro ip e h
    obtain ⟨k, w⟩ := f
    rw [cacheErase_cons] at h
    by_cases hk : k = ip
    · rw [if_pos hk] at h
      exact List.mem_cons_of_mem _ (ih ip e h)
    · rw [if_neg hk] at h
      rcases List.mem_cons.mp h with h1 | h2
      · exact h1 ▸ List.mem_cons_self _ _
      · exact List.mem_cons_of_mem _ (ih ip e h2)

-- One cached-or-fresh lookup step for an IP whose provider exchange fails:
-- the produced record is a failure record, and a cache holding only failure
-- records still holds only failure records afterwards.
theorem checkIPRep_fail_step (penv : ReputationEnv) (ttl now : Nat) (cache : RepCache)
    (ip : String) (hf : fetchFails penv ip) (hc : ∀ e ∈ cache, failRecord e.2) :
    failRecord (checkIPReputationWithCache penv ttl now cache ip).1 ∧
    (∀ e ∈ (checkIPReputationWithCache penv ttl now cache ip).2.1, failRecord e.2) := by
  obtain ⟨r, hr, hfr⟩ := checkIP_fail_record penv now ip hf
  unfold checkIPReputationWithCache
  cases hg : cacheGet cache ip with
  | some cached =>
    dsimp only
    by_cases hfresh : now - cached.checkedAt < ttl
    · rw [if_pos hfresh]
      have hcc : failRecord cached := by
        obtain ⟨k, hk⟩ := cacheGet_mem cache ip cached hg
        exact hc (k, cached) hk
      exact ⟨hcc, hc⟩
    · rw [if_neg hfresh, hr]
      refine ⟨hfr, ?_⟩
      intro e he
      unfold cacheSet at he
      rcases List.mem_cons.mp he with h1 | h2
      · rw [h1]; exact hfr
      · exact hc e (cacheErase_mem cache ip e h2)
  | none =>
    dsimp only
    rw [hr]
    refine ⟨hfr, ?_⟩
    intro e he
    unfold cacheSet at he
    rcases List.mem_cons.mp he with h1 | h2
    · rw [h1]; exact hfr
    · exact hc e (cacheErase_mem cache ip e h2)

-- If every consulted IP's provider exchange fails, the per-IP loop never
-- raises the high-risk flag and every produced record is a failure record.
theorem repLoop_allfail (penv : ReputationEnv) (ttl now : Nat) :
    ∀ (ips : List String) (cache : RepCache),
    (∀ ip ∈ ips, fetchFails penv ip) → (∀ e ∈ cache, failRecord e.2) →
    (repLoop penv ttl now ips cache).2.2 = false ∧
    (∀ r ∈ (repLoop penv ttl now ips cache).1, failRecord r) ∧
    (∀ e ∈ (repLoop penv ttl now ips cache).2.1, failRecord e.2) := by
  intro ips
  induction ips with
  | nil =>
    intro cache hf hc
    refine ⟨rfl, ?_, hc⟩
    intro r hr
    cases hr
  | cons ip rest ih =>
    intro cache hf hc
    obtain ⟨hstep1, hstep2⟩ :=
      checkIPRep_fail_step penv ttl now cache ip (hf ip (List.mem_cons_self _ _)) hc
    obtain ⟨hflag, hres, hcache⟩ := ih (checkIPReputationWithCache penv ttl now cache ip).2.1
      (fun x hx => hf x (List.mem_cons_of_mem _ hx)) hstep2
    simp only [repLoop]
    refine ⟨?_, ?_, ?_⟩
    · rw [decide_eq_false (not_lt.mpr hstep1.1), decide_eq_false (not_lt.mpr hstep1.2.1), hflag]
      rfl
    · intro r hr
      rcases List.mem_cons.mp hr with h1 | h2
      · rw [h1]; exact hstep1
      · exact hres r h2
    · exact hcache

-- The loop's high-risk flag is raised exactly when some produced record
-- exceeds the confidence or report threshold.
theorem repLoop_flag (penv : ReputationEnv) (ttl now : Nat) :
    ∀ (ips : List String) (cache : RepCache),
    ((repLoop penv ttl now ips cache).2.2 = true ↔
      ∃ r ∈ (repLoop penv ttl now ips cache).1,
        75 < r.abuseConfidenceScore ∨ 50 < r.totalReports) := by
  intro ips
  induction ips with
  | nil => intro cache; simp [repLoop]
  | cons ip rest ih =>
    intro cache
    simp only [repLoop, Bool.or_eq_true, decide_eq_true_eq, List.mem_cons]
    rw [ih]
    constructor
    · rintro ((h | h) | h)
      · exact ⟨_, Or.inl rfl, Or.inl h⟩
      · exact ⟨_, Or.inl rfl, Or.inr h⟩
      · obtain ⟨r, hr, hp⟩ := h
        exact ⟨r, Or.inr hr, hp⟩
    · rintro ⟨r, hr | hr, hp⟩
      · rcases hp with h | h
        · exact Or.inl (Or.inl (hr ▸ h))
        · exact Or.inl (Or.inr (hr ▸ h))
      · exact Or.inr ⟨r, hr, hp⟩

/-- C7 counterexample: in a world where basic validation succeeds and the
sole mail-server IP has confidence score 90, the verdict's status is
downgraded to "suspicious" — not to the Risky status ("RISKY"/"risky") the
claim names. -/
theorem reputation_downgrade_status_cex :
    (ValidateEmailWithReputation envHigh 86400 50 [] "user@good-mail.biz").1.status = "suspicious" ∧
    (ValidateEmailWithReputation envHigh 86400 50 [] "user@good-mail.biz").1.reason =
      "mail server IP has poor reputation" ∧
    "suspicious" ≠ StatusRisky ∧ "suspicious" ≠ "risky" := by
  exact ⟨by decide, by decide, by decide, by decide⟩

/-- C7 amended: when basic validation yields "valid" and some resolved
mail-server IP's looked-up record has confidence score above 75 or report
count above 50, ValidateEmailWithReputation downgrades the status to
"suspicious" (the code's risky vocabulary) with reason "mail server IP has
poor reputation", and the reputation records and mail-server IPs appear in
the result's metadata. -/
theorem reputation_downgrade_suspicious (env : FullEnv) (ttl now : Nat) (cache : RepCache)
    (email lp domain : String) (ips : List String)
    (hv : (ValidateEmail env.dns email).status = "valid")
    (hsp : goSplitChar '@' email = [lp, domain])
    (hips : GetMailServerIPs env.dns domain = .ok ips)
    (hne : ips ≠ [])
    (hhigh : ∃ r ∈ (repLoop env.rep ttl now ips cache).1,
      75 < r.abuseConfidenceScore ∨ 50 < r.totalReports) :
    (ValidateEmailWithReputation env ttl now cache email).1.status = "suspicious" ∧
    (ValidateEmailWithReputation env ttl now cache email).1.reason =
      "mail server IP has poor reputation" ∧
    ("ip_reputation", MetaVal.repList (repLoop env.rep ttl now ips cache).1) ∈
      (ValidateEmailWithReputation env ttl now cache email).1.metadata ∧
    ("mail_server_ips", MetaVal.strList ips) ∈
      (ValidateEmailWithReputation env ttl now cache email).1.metadata := by
  have hflag : (repLoop env.rep ttl now ips cache).2.2 = true :=
    (repLoop_flag env.rep ttl now ips cache).mpr hhigh
  have hemp : ips.isEmpty = false := by
    cases ips with
    | nil => exact absurd rfl hne
    | cons a l => rfl
  refine ⟨?_, ?_, ?_, ?_⟩ <;>
    simp [ValidateEmailWithReputation, hv, hsp, hips, hemp, hflag]

/-- C7 witness: the score-90 world downgrades user@good-mail.biz to
"suspicious" and records the mail-server IP in the metadata. -/
theorem reputation_downgrade_suspicious_inst :
    (ValidateEmailWithReputation envHigh 86400 50 [] "user@good-mail.biz").1.status = "suspicious" ∧
    ("mail_server_ips", MetaVal.strList ["203.0.113.5"]) ∈
      (ValidateEmailWithReputation envHigh 86400 50 [] "user@good-mail.biz").1.metadata := by
  have h := reputation_downgrade_suspicious envHigh 86400 50 [] "user@good-mail.biz"
    "user" "good-mail.biz" ["203.0.113.5"] (by decide) (by decide) rfl (by decide) (by decide)
  exact ⟨h.1, h.2.2.2⟩

/-- C8 counterexample: two worlds with identical DNS differing only in the
provider exchange for the sole mail-server IP: with a successful score-90
lookup the status is "suspicious", with a failing lookup it is "valid" — so
a reputation failure does change the returned status relative to the run
without the failure (it masks the downgrade). -/
theorem reputation_failure_masking_cex :
    envDown.dns = envHigh.dns ∧
    (ValidateEmailWithReputation envHigh 86400 50 [] "user@good-mail.biz").1.status = "suspicious" ∧
    (ValidateEmailWithReputation envDown 86400 50 [] "user@good-mail.biz").1.status = "valid" ∧
    ("valid" : String) ≠ "suspicious" := by
  exact ⟨rfl, by decide, by decide, by decide⟩

/-- C8 amended: for every address whose basic validation yields "valid", a
reputation-path failure never escalates the verdict: a mail-server-IP
resolution error leaves the status at "valid" and records the failure under
the ip_reputation_error metadata key; and when every consulted IP's provider
exchange fails, every produced record is a zero-score failure record (so the
high-risk downgrade cannot fire), the status stays "valid", and the failure
records appear in the metadata. A failure can, however, mask a downgrade
that a successful high-risk lookup would have caused, so the status is not
always the same as in the run without the failure. -/
theorem reputation_failure_never_escalates (env : FullEnv) (ttl now : Nat)
    (email lp domain : String)
    (hv : (ValidateEmail env.dns email).status = "valid")
    (hsp : goSplitChar '@' email = [lp, domain]) :
    (∀ (cache : RepCache) (e : String), GetMailServerIPs env.dns domain = .error e →
      (ValidateEmailWithReputation env ttl now cache email).1.status = "valid" ∧
      ("ip_reputation_error", MetaVal.s ("Failed to lookup mail servers: " ++ e)) ∈
        (ValidateEmailWithReputation env ttl now cache email).1.metadata) ∧
    (∀ ips, GetMailServerIPs env.dns domain = .ok ips → ips ≠ [] →
      (∀ ip ∈ ips, fetchFails env.rep ip) →
      (ValidateEmailWithReputation env ttl now [] email).1.status = "valid" ∧
      (∀ r ∈ (repLoop env.rep ttl now ips []).1, failRecord r) ∧
      ("ip_reputation", MetaVal.repList (repLoop env.rep ttl now ips []).1) ∈
        (ValidateEmailWithReputation env ttl now [] email).1.metadata) := by
  constructor
  · intro cache e he
    constructor
    · simp [ValidateEmailWithReputation, hv, hsp, he]
    · simp [ValidateEmailWithReputation, hv, hsp, he]
  · intro ips hips hne hf
    obtain ⟨hflag, hres, _⟩ := repLoop_allfail env.rep ttl now ips [] hf
      (by intro e he; cases he)
    have hemp : ips.isEmpty = false := by
      cases ips with
      | nil => exact absurd rfl hne
      | cons a l => rfl
    refine ⟨?_, hres, ?_⟩
    · simp [ValidateEmailWithReputation, hv, hsp, hips, hemp, hflag]
    · simp [ValidateEmailWithReputation, hv, hsp, hips, hemp, hflag]

/-- C8 witness: with the provider down, user@good-mail.biz keeps its "valid"
status and the produced record is a failure record. -/
theorem reputation_failure_never_escalates_inst :
    (ValidateEmailWithReputation envDown 86400 50 [] "user@good-mail.biz").1.status = "valid" ∧
    ∀ r ∈ (repLoop envDown.rep 86400 50 ["203.0.113.5"] []).1, failRecord r := by
  have h := (reputation_failure_never_escalates envDown 86400 50 "user@good-mail.biz"
    "user" "good-mail.biz" (by decide) (by decide)).2 ["203.0.113.5"] rfl (by decide)
    (by
      intro ip hip
      have hip5 : ip = "203.0.113.5" := List.mem_singleton.mp hip
      subst hip5
      decide)
  exact ⟨h.1, h.2.1⟩
